import Mathlib

/-!
Shallow embedding of the website-builder-deployer repository
(src/mcp_server.py and src/mcp_client.py) together with theorems that
settle the frozen claims about its specification.

Conventions of the embedding:
* Python strings are modelled as Lean `String` / `List Char`; regular
  expression scans of `re.search` are modelled as explicit leftmost-match
  recursions over the character list.
* Whitespace follows the ASCII whitespace set of the Python `\s` class
  and `str.strip` (space, tab, newline, carriage return, vertical tab,
  form feed); non-ASCII whitespace is out of scope.
* Subprocess output and the random uuid generator are external inputs;
  they appear as explicit parameters of the embedded functions.
* The filesystem directory used by the server is modelled as an optional
  list of file entries (`none` models a missing directory).
-/

/-- ASCII whitespace test matching the Python regex class backslash-s and
the default `str.strip` on ASCII input. -/
def pyIsSpace (c : Char) : Bool :=
  c == ' ' || c == '\t' || c == '\n' || c == '\r' || c == '\x0b' || c == '\x0c'

/-- Lowercasing of a string, character by character, matching Python
`str.lower` on ASCII input. -/
def pyLower (s : String) : String :=
  String.mk (s.data.map Char.toLower)

/-- Drops `p` from the front of `cs` if `p` is literally its front,
returning the remainder; otherwise `none`. -/
def tryDrop : List Char → List Char → Option (List Char)
  | [], cs => some cs
  | _ :: _, [] => none
  | p :: ps, c :: cs => if p = c then tryDrop ps cs else none

/-- Substring test matching the Python `in` operator on strings: true when
`needle` occurs contiguously inside `hay`. -/
def containsSeq (needle : List Char) : List Char → Bool
  | [] => (tryDrop needle []).isSome
  | c :: cs => (tryDrop needle (c :: cs)).isSome || containsSeq needle cs

/-- Substring test on strings, Python `needle in hay`. -/
def containsTok (needle hay : String) : Bool :=
  containsSeq needle.data hay.data

/-- Removes leading and trailing ASCII whitespace, Python `str.strip`. -/
def pyStripChars (cs : List Char) : List Char :=
  ((cs.dropWhile pyIsSpace).reverse.dropWhile pyIsSpace).reverse

/-- Extension of a file name including the dot, following the rule of
`pathlib.PurePath.suffix`: the part from the last dot on, provided that
dot is neither the first nor the last character; otherwise empty. -/
def pyExt (name : String) : String :=
  let extRev := name.data.reverse.takeWhile (fun c => c != '.')
  if 0 < extRev.length ∧ extRev.length < name.data.length - 1 then
    String.mk ('.' :: extRev.reverse)
  else ""

/-- File name without its `pyExt` extension, following
`pathlib.PurePath.stem`. -/
def pyStem (name : String) : String :=
  String.mk (name.data.take (name.data.length - (pyExt name).data.length))

/-! ## extract_code_blocks (src/mcp_server.py lines 321-336)

The Python function scans the text with
`re.search(rf"```lang\s+(.*?)```", text, re.DOTALL)` after lowercasing
`lang`, and returns `match.group(1).strip()` or the empty string.  The
scan is modelled as the leftmost position at which the literal fence
marker is followed by at least one whitespace character; the greedy
whitespace run is consumed and the group is the shortest stretch up to
the next triple backtick, exactly as the greedy-then-lazy pattern
matches (backticks are not whitespace, so no backtracking case arises).
-/

/-- The triple backtick fence delimiter. -/
def tripleTick : List Char := ['\x60', '\x60', '\x60']

/-- Shortest stretch of characters before the next triple backtick;
`none` when no triple backtick follows.  This is the lazy group of the
fence pattern. -/
def upToTriple : List Char → Option (List Char)
  | [] => none
  | c :: cs =>
    if (tryDrop tripleTick (c :: cs)).isSome then some []
    else
      match upToTriple cs with
      | some g => some (c :: g)
      | none => none

/-- Attempt of the fence pattern at the current position: the literal
marker, at least one whitespace character (consumed greedily), then the
lazy group up to the closing triple backtick. -/
def fenceMatchAt (tag cs : List Char) : Option (List Char) :=
  match tryDrop (tripleTick ++ tag) cs with
  | none => none
  | some rest =>
    match rest with
    | [] => none
    | c :: _ => if pyIsSpace c then upToTriple (rest.dropWhile pyIsSpace) else none

/-- Leftmost match of the fence pattern, as performed by `re.search`. -/
def fenceSearch (tag : List Char) : List Char → Option (List Char)
  | [] => none
  | c :: cs =>
    match fenceMatchAt tag (c :: cs) with
    | some g => some g
    | none => fenceSearch tag cs

/-- Embedding of `extract_code_blocks(text, lang)`: the guard on falsy
text, the lowercasing of the language tag, the regex scan and the final
strip.  The language tag is assumed free of regex metacharacters, as in
every call of the repository. -/
def extract_code_blocks (text lang : String) : String :=
  if text = "" then "no text provided"
  else
    match fenceSearch (pyLower lang).data text.data with
    | some g => String.mk (pyStripChars g)
    | none => ""

/-! ## remove_ansi and the Netlify tools (src/mcp_server.py lines 13-23, 262-318)

`run_command` spawns a shell; its combined stdout plus stderr text is an
external input and appears below as an explicit string parameter of each
tool.  `remove_ansi` substitutes the pattern
ESC followed by either a single byte in the two ranges 0x40-0x5A and
0x5C-0x5F, or a bracketed CSI sequence, with the empty string.
-/

/-- Byte class of the first alternative of the ANSI pattern: 0x40-0x5A
or 0x5C-0x5F. -/
def ansiSingleByte (c : Char) : Bool :=
  (0x40 ≤ c.toNat && c.toNat ≤ 0x5A) || (0x5C ≤ c.toNat && c.toNat ≤ 0x5F)

/-- CSI parameter byte class, 0x30-0x3F. -/
def csiParamByte (c : Char) : Bool := 0x30 ≤ c.toNat && c.toNat ≤ 0x3F

/-- CSI intermediate byte class, 0x20-0x2F. -/
def csiInterByte (c : Char) : Bool := 0x20 ≤ c.toNat && c.toNat ≤ 0x2F

/-- CSI final byte class, 0x40-0x7E. -/
def csiFinalByte (c : Char) : Bool := 0x40 ≤ c.toNat && c.toNat ≤ 0x7E

/-- Matches the tail of an ANSI escape after the ESC byte, returning the
remainder of the text on success.  The two character classes after the
bracket are consumed greedily; their byte ranges are disjoint from the
final byte range, so greedy consumption is exact. -/
def ansiTail (cs : List Char) : Option (List Char) :=
  match cs with
  | [] => none
  | c :: rest =>
    if ansiSingleByte c then some rest
    else if c = '[' then
      let r1 := rest.dropWhile csiParamByte
      let r2 := r1.dropWhile csiInterByte
      match r2 with
      | d :: r3 => if csiFinalByte d then some r3 else none
      | [] => none
    else none

/-- Fueled worker for `remove_ansi`.  Every recursive step consumes at
least one character of the text, so fuel equal to the length of the text
never runs out and the zero-fuel branch is unreachable. -/
def removeAnsiAux : Nat → List Char → List Char
  | _, [] => []
  | 0, cs => cs
  | fuel + 1, c :: cs =>
    if c = '\x1b' then
      match ansiTail cs with
      | some rest => removeAnsiAux fuel rest
      | none => c :: removeAnsiAux fuel cs
    else c :: removeAnsiAux fuel cs

/-- Embedding of `remove_ansi`: deletes every non-overlapping match of
the ANSI escape pattern, scanning left to right as `re.sub` does. -/
def remove_ansi (cs : List Char) : List Char :=
  removeAnsiAux cs.length cs

/-- String form of `remove_ansi`. -/
def remove_ansi_str (s : String) : String :=
  String.mk (remove_ansi s.data)

/-- The literal that opens the deploy URL pattern, a quoted field name. -/
def deployUrlLiteral : List Char := "\"deploy_url\"".data

/-- Attempt of the pattern quoted deploy_url field, optional whitespace,
colon, optional whitespace, then a quoted non-empty value, at the
current position.  Returns the captured value characters. -/
def deployUrlAt (cs : List Char) : Option (List Char) :=
  match tryDrop deployUrlLiteral cs with
  | none => none
  | some r =>
    match r.dropWhile pyIsSpace with
    | ':' :: r2 =>
      match r2.dropWhile pyIsSpace with
      | '"' :: r3 =>
        let g := r3.takeWhile (fun c => c != '"')
        match r3.dropWhile (fun c => c != '"') with
        | '"' :: _ => if g = [] then none else some g
        | _ => none
      | _ => none
    | _ => none

/-- Leftmost match of the deploy URL pattern, as `re.search` performs. -/
def findDeployUrl : List Char → Option (List Char)
  | [] => none
  | c :: cs =>
    match deployUrlAt (c :: cs) with
    | some g => some g
    | none => findDeployUrl cs

/-- Embedding of `deploy_netlify`, with the combined output of the
deploy subprocess as explicit input: strips ANSI escapes, scans for the
deploy URL, and renders either the success line or the warning that
carries the cleaned output. -/
def deploy_netlify (raw_output : String) : String :=
  let clean := remove_ansi_str raw_output
  match findDeployUrl clean.data with
  | some url => "✅ Deploy successful!\n\nURL: " ++ String.mk url
  | none => "⚠️ Could not find deploy URL.\n\nFull output:\n" ++ clean

/-- The French marker tested against the probe output. -/
def notRecognizedFr : String := "\x27netlify\x27 n\x27est pas reconnu"

/-- The English marker tested against the probe output. -/
def notRecognizedEn : String := "\x27netlify\x27 is not recognized"

/-- Embedding of `check_netlify_cli`, with the probe output as input. -/
def check_netlify_cli (probeOut : String) : String :=
  if containsTok notRecognizedFr probeOut || containsTok notRecognizedEn probeOut then
    "Netlify CLI is NOT installed."
  else
    "Netlify CLI is installed.\n\n" ++ probeOut

/-- Embedding of `install_netlify_cli`, with the probe output and the
installer output as inputs.  The Python function has no return statement
on the already-installed path, hence the `Option`: `none` is the Python
`None`. -/
def install_netlify_cli (probeOut installOut : String) : Option String :=
  if containsTok notRecognizedFr probeOut || containsTok notRecognizedEn probeOut then
    some installOut
  else none

/-! ## Image catalog and file tools (src/mcp_server.py lines 29-256, 338-365)

The fixed directory is modelled as an optional list of entries: `none`
models a missing directory, and each entry carries the file name, its
byte size and whether it is a regular file.  Scanning order is the list
order.  The `mimetypes.guess_type` table is modelled from the CPython
defaults for the image extensions; the rendering of the size uses exact
integer tenths of a kibibyte in place of the float formatting of the
source (no claim depends on the size text).
-/

/-- A directory entry of the website directory. -/
structure FileEntry where
  name : String
  size : Nat
  isFile : Bool
deriving DecidableEq

/-- The hardcoded directory of src/mcp_server.py line 30. -/
def IMAGES_DIR : String := "C:\\Users\\tej\\Desktop\\website_final_version1"

/-- The fixed allow-set of image extensions, line 31. -/
def SUPPORTED_IMAGE_FORMATS : List String :=
  [".jpg", ".jpeg", ".png", ".gif", ".svg", ".webp", ".bmp", ".ico"]

/-- Lowercased extension of a file name, as `file_path.suffix.lower()`. -/
def lowerExt (name : String) : String := pyLower (pyExt name)

/-- Rendering of the size in KB; approximates the Python float format
string with exact round-half-up tenths. -/
def formatSizeKB (bytes : Nat) : String :=
  let t := (bytes * 10 + 512) / 1024
  toString (t / 10) ++ "." ++ toString (t % 10) ++ " KB"

/-- Content type table of `mimetypes.guess_type` restricted to the
supported image extensions, with the fallback of line 54. -/
def guessMime (name : String) : String :=
  let e := lowerExt name
  if e = ".jpg" ∨ e = ".jpeg" then "image/jpeg"
  else if e = ".png" then "image/png"
  else if e = ".gif" then "image/gif"
  else if e = ".svg" then "image/svg+xml"
  else if e = ".webp" then "image/webp"
  else if e = ".bmp" then "image/bmp"
  else if e = ".ico" then "image/vnd.microsoft.icon"
  else "image/unknown"

/-- The per-image info dictionary built at lines 49-55. -/
structure ImageInfo where
  name : String
  path : String
  size : String
  format : String
  mime_type : String
deriving DecidableEq

/-- Builds the info record of one directory entry. -/
def mkImageInfo (e : FileEntry) : ImageInfo :=
  { name := e.name
    path := IMAGES_DIR ++ "\\" ++ e.name
    size := formatSizeKB e.size
    format := lowerExt e.name
    mime_type := guessMime e.name }

/-- Result shape of `get_available_images`: a message dictionary, an
error dictionary (the except branch, unreachable in the model), or the
dictionary of images keyed by file name.  Catalogued keys always carry a
dotted image extension, so they never collide with the literal keys
message and error tested by the callers. -/
inductive ImagesResult where
  | message (s : String)
  | error (s : String)
  | images (l : List (String × ImageInfo))
deriving DecidableEq

/-- Embedding of `get_available_images`: a missing directory is created
and reported; otherwise regular files whose lowercased extension is in
the allow-set are catalogued in scan order, and an empty catalog is
reported as a message. -/
def get_available_images (fs : Option (List FileEntry)) : ImagesResult :=
  match fs with
  | none => .message ("Images directory created at: " ++ IMAGES_DIR ++ ". Please add some images.")
  | some entries =>
    let infos := entries.filterMap (fun e =>
      if e.isFile ∧ lowerExt e.name ∈ SUPPORTED_IMAGE_FORMATS then
        some (e.name, mkImageInfo e)
      else none)
    if infos = [] then
      .message "No supported image files found. Please add images to the directory."
    else .images infos

/-- Simplified JSON rendering of a message or error dictionary, used by
the tools that pass the result through; the claims never inspect this
text. -/
def dumpImagesResult : ImagesResult → String
  | .message s => "\x7b\n  \"message\": \"" ++ s ++ "\"\n\x7d"
  | .error s => "\x7b\n  \"error\": \"" ++ s ++ "\"\n\x7d"
  | .images _ => ""

/-- Inserts or overwrites the named file in the directory listing; an
overwrite keeps the position of the entry, a new file is appended. -/
def upsertFile (d : List FileEntry) (name : String) (size : Nat) : List FileEntry :=
  if d.any (fun e => e.name = name) then
    d.map (fun e => if e.name = name then { name := name, size := size, isFile := true } else e)
  else d ++ [{ name := name, size := size, isFile := true }]

/-- Embedding of `save_code_to_path`: creates the directory if missing,
writes the text to the named file unconditionally, and renders the
confirmation together with the names of the currently catalogued
images. -/
def save_code_to_path (fs : Option (List FileEntry)) (the_extracted_code_blocks name_of_the_file : String) :
    String × List FileEntry :=
  let d := fs.getD []
  let d2 := upsertFile d name_of_the_file the_extracted_code_blocks.utf8ByteSize
  let file_path := IMAGES_DIR ++ "\\" ++ name_of_the_file
  let available :=
    match get_available_images (some d2) with
    | .images l => l.map (fun p => p.1)
    | _ => []
  let base := "✅ Website file saved successfully: " ++ file_path
  let res :=
    if available ≠ [] then
      base ++ "\n\n📸 Available images in directory: " ++ String.intercalate ", " available
        ++ "\n💡 You can reference these images in your HTML using: <img src=\"image_name.ext\" alt=\"description\">"
    else base
  (res, d2)

/-- Windows path equality: `pathlib` compares `WindowsPath` values
case-insensitively, modelled as ASCII lowercase equality of the path
text. -/
def pathEqWin (a b : String) : Bool := pyLower a == pyLower b

/-- The confirmation of line 139 for an image already in the website
directory. -/
def alreadyMsg (image_name destination_name : String) : String :=
  "✅ Image \x27" ++ image_name ++ "\x27 is already in the website directory.\n\nHTML usage: <img src=\""
    ++ destination_name ++ "\" alt=\"" ++ pyStem destination_name ++ "\">\n\nPath: "
    ++ IMAGES_DIR ++ "\\" ++ destination_name

/-- The confirmation of line 145 after a copy. -/
def copiedMsg (src dst destination_name : String) : String :=
  "✅ Image copied successfully!\n\nSource: " ++ src ++ "\nDestination: " ++ dst
    ++ "\n\nHTML usage: <img src=\"" ++ destination_name ++ "\" alt=\"" ++ pyStem destination_name ++ "\">"

/-- Embedding of `copy_image_to_website`: passes message and error
results through, reports an unknown image, confirms without copying when
source and destination paths coincide, and otherwise duplicates the
source entry under the destination name (`shutil.copy2`).  The optional
new name is falsy in Python both when absent and when empty. -/
def copy_image_to_website (fs : Option (List FileEntry)) (image_name : String) (new_name : Option String) :
    String × Option (List FileEntry) :=
  match get_available_images fs with
  | .images l =>
    match l.find? (fun p => p.1 == image_name) with
    | none =>
      ("❌ Image \x27" ++ image_name ++ "\x27 not found.\nAvailable images: "
        ++ String.intercalate ", " (l.map (fun p => p.1)), fs)
    | some p =>
      let source_path := p.2.path
      let destination_name :=
        match new_name with
        | some s => if s = "" then image_name else s
        | none => image_name
      let destination_path := IMAGES_DIR ++ "\\" ++ destination_name
      if pathEqWin source_path destination_path then
        (alreadyMsg image_name destination_name, fs)
      else
        let d := fs.getD []
        let srcSize := ((d.find? (fun e => e.name == p.1)).map (fun e => e.size)).getD 0
        (copiedMsg source_path destination_path destination_name,
          some (upsertFile d destination_name srcSize))
  | r => (dumpImagesResult r, fs)

/-! ## suggest_image_usage (src/mcp_server.py lines 189-256) -/

/-- One usage suggestion, the dictionary built at lines 208-213. -/
structure Suggestion where
  image : String
  suggested_usage : String
  html_example : String
  confidence : String
deriving DecidableEq

/-- The suggestion of one image: the keyword branches over the lowercased
file name, then the context-dependent overrides. -/
def suggestFor (context_lower image_name : String) : Suggestion :=
  let nameL := pyLower image_name
  let base : Suggestion :=
    { image := image_name
      suggested_usage := ""
      html_example := "<img src=\"" ++ image_name ++ "\" alt=\"" ++ pyStem image_name ++ "\">"
      confidence := "medium" }
  let s1 :=
    if containsTok "logo" nameL then
      { base with
        suggested_usage := "Use as website logo in header"
        html_example := "<img src=\"" ++ image_name ++ "\" alt=\"Company Logo\" class=\"logo\" style=\"height: 50px;\">"
        confidence := "high" }
    else if containsTok "hero" nameL || containsTok "banner" nameL then
      { base with
        suggested_usage := "Use as hero/banner background image"
        html_example := "<div style=\"background-image: url(\x27" ++ image_name
          ++ "\x27); background-size: cover; background-position: center;\"></div>"
        confidence := "high" }
    else if containsTok "product" nameL then
      { base with
        suggested_usage := "Use in product showcase or gallery"
        html_example := "<img src=\"" ++ image_name ++ "\" alt=\"Product\" class=\"product-image\" style=\"max-width: 300px;\">"
        confidence := "high" }
    else if containsTok "team" nameL || containsTok "staff" nameL then
      { base with
        suggested_usage := "Use in team/about section"
        html_example := "<img src=\"" ++ image_name ++ "\" alt=\"Team Member\" class=\"team-photo\" style=\"border-radius: 50%; width: 150px;\">"
        confidence := "high" }
    else if containsTok "icon" nameL then
      { base with
        suggested_usage := "Use as icon or small decorative element"
        html_example := "<img src=\"" ++ image_name ++ "\" alt=\"Icon\" style=\"width: 32px; height: 32px;\">"
        confidence := "medium" }
    else base
  if containsTok "portfolio" context_lower
      && (containsTok "work" nameL || containsTok "project" nameL || containsTok "portfolio" nameL) then
    { s1 with suggested_usage := "Perfect for portfolio showcase", confidence := "high" }
  else if containsTok "landing" context_lower && containsTok "hero" nameL then
    { s1 with suggested_usage := "Ideal for landing page hero section", confidence := "high" }
  else s1

/-- Result shape of `suggest_image_usage`: a message or error dictionary
passed through, or the suggestions object of lines 247-251. -/
inductive SuggestResult where
  | passthrough (r : ImagesResult)
  | ok (website_context : String) (total_images : Nat) (suggestions : List Suggestion)
deriving DecidableEq

/-- Embedding of `suggest_image_usage` over the modelled directory. -/
def suggest_image_usage (website_context : String) (fs : Option (List FileEntry)) : SuggestResult :=
  match get_available_images fs with
  | .images l =>
    .ok website_context l.length (l.map (fun p => suggestFor (pyLower website_context) p.1))
  | r => .passthrough r

/-! ## Session manager and prompt pipeline (src/mcp_client.py lines 75-243)

The uuid generator is an external entropy source: each embedded call
that generates an identifier takes the drawn value as the explicit
`fresh` parameter.  Mutation of the global manager is explicit state
passing. -/

/-- The two fields of `WebsiteSessionManager`. -/
structure WebsiteSessionManager where
  current_session_id : Option String
  project_description : String
deriving DecidableEq

/-- Embedding of `start_new_session`: stores the freshly drawn
identifier, clears the project description, and returns the
identifier. -/
def start_new_session (_m : WebsiteSessionManager) (fresh : String) :
    String × WebsiteSessionManager :=
  (fresh, { current_session_id := some fresh, project_description := "" })

/-- Embedding of `get_current_session`. -/
def get_current_session (m : WebsiteSessionManager) : Option String :=
  m.current_session_id

/-- Embedding of `clear_current_session` (lines 238-243): reads the old
identifier, starts a new session, and renders the confirmation. -/
def clear_current_session (m : WebsiteSessionManager) (fresh : String) :
    String × WebsiteSessionManager :=
  let old := get_current_session m
  let r := start_new_session m fresh
  ("🧹 **Session Cleared!**\n\nOld session: "
      ++ (match old with | some s => s.take 8 | none => "None")
      ++ "...\nNew session: " ++ r.1.take 8
      ++ "...\n\nStarting fresh - previous state is preserved in memory but no longer active.",
    r.2)

/-- Embedding of `start_new_project` (lines 219-222). -/
def start_new_project (m : WebsiteSessionManager) (fresh : String) :
    String × WebsiteSessionManager :=
  let r := start_new_session m fresh
  ("🚀 **Started New Website Project!**\n\nSession ID: " ++ r.1.take 8
      ++ "...\n\nYou can now create a fresh website. Previous conversations are saved separately.",
    r.2)

/-- Folds a sequence of `start_new_session` calls with the listed fresh
identifiers over the manager. -/
def runSessions (m : WebsiteSessionManager) (ids : List String) : WebsiteSessionManager :=
  ids.foldl (fun s i => (start_new_session s i).2) m

/-- One message of the agent response: the optional content attribute,
the optional type attribute, and the text of `str(msg)`. -/
structure Msg where
  content : Option String
  msgType : Option String
  reprStr : String
deriving DecidableEq

/-- The response of the agent invocation: either a dictionary with a
messages list, or anything else carried by its `str` rendering. -/
inductive AgentResponse where
  | withMessages (msgs : List Msg)
  | other (reprStr : String)
deriving DecidableEq

/-- The collection loop of lines 188-194: keeps the content of every
message that has a non-empty content attribute and is either typed ai or
has no type attribute at all. -/
def collectAssistant (msgs : List Msg) : List String :=
  msgs.filterMap (fun m =>
    match m.content with
    | none => none
    | some c =>
      if c = "" then none
      else
        match m.msgType with
        | some t => if t = "ai" then some c else none
        | none => some c)

/-- The extraction of lines 184-206: the joined collection when it is
non-empty, else the content of the last message (its `str` rendering
when the content attribute is absent), else the `str` of the response.
`none` models the IndexError raised by indexing an empty messages
list. -/
def extract_response_text : AgentResponse → Option String
  | .other r => some r
  | .withMessages msgs =>
    let assistant := collectAssistant msgs
    if assistant ≠ [] then some (String.intercalate "\n\n" assistant)
    else
      match msgs.getLast? with
      | none => none
      | some m =>
        match m.content with
        | some c => some c
        | none => some m.reprStr

/-- The static troubleshooting text of line 217. -/
def TROUBLESHOOTING : String :=
  "\n\nPlease check that:\n1. The Gradio MCP server is running on port 7860\n2. Your Google API key is set correctly\n3. The server is accessible"

/-- The session status line appended at line 209. -/
def sessionStatusLine (sid : String) : String :=
  "\n\n🧠 **Session ID:** " ++ sid.take 8 ++ "... (State automatically saved)"

/-- Resolves or creates the session identifier, lines 159-161. -/
def ensure_session (m : WebsiteSessionManager) (fresh : String) :
    String × WebsiteSessionManager :=
  match get_current_session m with
  | some s => (s, m)
  | none => start_new_session m fresh

/-- Outcome of the external agent machinery during one prompt: an
exception during lazy construction, an exception during invocation, or a
response.  The carried message is the exception text as it reaches the
outer handler (construction failures arrive wrapped by `setup`). -/
inductive AgentOutcome where
  | setupError (msg : String)
  | invokeError (msg : String)
  | success (resp : AgentResponse)

/-- Embedding of `process_prompt` (lines 153-217): construction errors
are caught before a session is resolved, invocation errors after; a
successful response is rendered with the session status line, and an
empty messages list raises an IndexError that the same handler formats.
Every failure path yields the Error string with the troubleshooting
text. -/
def process_prompt (m : WebsiteSessionManager) (fresh : String) (outcome : AgentOutcome) :
    String × WebsiteSessionManager :=
  match outcome with
  | .setupError e => ("Error: " ++ e ++ TROUBLESHOOTING, m)
  | .invokeError e =>
    let r := ensure_session m fresh
    ("Error: " ++ e ++ TROUBLESHOOTING, r.2)
  | .success resp =>
    let r := ensure_session m fresh
    match extract_response_text resp with
    | some t => (t ++ sessionStatusLine r.1, r.2)
    | none => ("Error: list index out of range" ++ TROUBLESHOOTING, r.2)

/-- Extraction preference exactly as the claim words it: with at least
one assistant-authored message present, the joined contents of the
assistant-authored messages; otherwise the text of the last message;
otherwise the stringified response. -/
def specClaimedText : AgentResponse → Option String
  | .withMessages msgs =>
    let ai := msgs.filterMap (fun m => if m.msgType = some "ai" then m.content else none)
    if ai ≠ [] then some (String.intercalate "\n\n" ai)
    else
      match msgs.getLast? with
      | none => none
      | some m =>
        match m.content with
        | some c => some c
        | none => some m.reprStr
  | .other r => some r

/-- Extraction preference as the amended claim words it: prefer the
blank-line join of the contents of the messages that have non-empty
content and are either assistant-authored or carry no type attribute;
otherwise the last message content, with its string rendering when the
content attribute is absent (an empty messages list raises); otherwise
the stringified response. -/
def specPreferredText : AgentResponse → Option String
  | .withMessages msgs =>
    let kept := msgs.filterMap (fun m =>
      match m.content with
      | some c => if c ≠ "" ∧ (m.msgType = some "ai" ∨ m.msgType = none) then some c else none
      | none => none)
    if kept ≠ [] then some (String.intercalate "\n\n" kept)
    else
      match msgs.getLast? with
      | none => none
      | some m =>
        match m.content with
        | some c => some c
        | none => some m.reprStr
  | .other r => some r

/-- A concrete colorized deploy output without a deploy_url field. -/
def deployNoUrlOutput : String := "\x1b[31mNo URL found\x1b[0m"

/-! ## Helper lemmas -/

/-- Success of `tryDrop` exposes the dropped front. -/
theorem tryDrop_eq_some (p : List Char) :
    ∀ cs r, tryDrop p cs = some r → cs = p ++ r := by
  induction p with
  | nil => intro cs r h; simp [tryDrop] at h; simp [h]
  | cons a as ih =>
    intro cs r h
    cases cs with
    | nil => simp [tryDrop] at h
    | cons c cs' =>
      by_cases hac : a = c
      · subst hac
        simp only [tryDrop, if_pos rfl] at h
        simpa using ih cs' r h
      · simp [tryDrop, hac] at h

/-- Dropping a literal front from its own append succeeds. -/
theorem tryDrop_append_self (p r : List Char) : tryDrop p (p ++ r) = some r := by
  induction p with
  | nil => rfl
  | cons a as ih => simpa [tryDrop] using ih

/-- Current identifier after a fold of fresh session starts: either the
initial identifier or one from the list. -/
theorem runSessions_current (ids : List String) :
    ∀ m : WebsiteSessionManager,
      get_current_session (runSessions m ids) = get_current_session m
      ∨ ∃ u ∈ ids, get_current_session (runSessions m ids) = some u := by
  induction ids with
  | nil => intro m; exact Or.inl rfl
  | cons i ids ih =>
    intro m
    have hstep : runSessions m (i :: ids) = runSessions (start_new_session m i).2 ids := rfl
    rcases ih (start_new_session m i).2 with h | ⟨u, hu, h⟩
    · exact Or.inr ⟨i, List.mem_cons_self i ids, by rw [hstep, h]; rfl⟩
    · exact Or.inr ⟨u, List.mem_cons_of_mem i hu, by rw [hstep, h]⟩

/-- C2: every session start (new project or clear) stores a non-null
identifier equal to the freshly drawn one and different from the
previous one, two sequential clears yield distinct non-null identifiers,
and the first identifier is never current again across later fresh
starts.  Freshness of the uuid draws is the hypothesis set. -/
theorem C2_session_freshness (m : WebsiteSessionManager) (u1 u2 : String) (future : List String)
    (h0 : get_current_session m ≠ some u1) (h12 : u1 ≠ u2) (hf : u1 ∉ future) :
    get_current_session (start_new_project m u1).2 = some u1
    ∧ get_current_session (clear_current_session m u1).2 = some u1
    ∧ get_current_session (clear_current_session m u1).2 ≠ get_current_session m
    ∧ get_current_session (clear_current_session (clear_current_session m u1).2 u2).2 = some u2
    ∧ get_current_session (clear_current_session (clear_current_session m u1).2 u2).2 ≠ some u1
    ∧ ∀ k, get_current_session
        (runSessions (clear_current_session (clear_current_session m u1).2 u2).2 (future.take k))
        ≠ some u1 := by
  refine ⟨rfl, rfl, ?_, rfl, ?_, ?_⟩
  · intro h; exact h0 (by rw [← h]; rfl)
  · intro h
    have h' : u2 = u1 := by injection h
    exact h12 h'.symm
  · intro k
    rcases runSessions_current (future.take k)
        (clear_current_session (clear_current_session m u1).2 u2).2 with h | ⟨u, hu, h⟩
    · rw [h]; intro hc
      have : u2 = u1 := by injection hc
      exact h12 this.symm
    · rw [h]; intro hc
      have : u = u1 := by injection hc
      exact hf (this ▸ List.take_subset k future hu)

/-- Witness for C2 at concrete fresh identifiers. -/
theorem C2_witness :
    get_current_session (⟨none, ""⟩ : WebsiteSessionManager) ≠ some "a"
    ∧ get_current_session
        (runSessions (clear_current_session (clear_current_session ⟨none, ""⟩ "a").2 "b").2
          (["c"].take 1)) ≠ some "a" :=
  ⟨by decide,
   (C2_session_freshness ⟨none, ""⟩ "a" "b" ["c"] (by decide) (by decide) (by decide)).2.2.2.2.2 1⟩

/-- C6: every exception reaching the outer handler of `process_prompt`,
whether from agent construction or invocation, is rendered as a string
that is exactly the Error prefix, the exception message, and the static
troubleshooting text; in particular it begins with Error, contains the
message, and ends with the fixed text. -/
theorem C6_exception_rendering (m : WebsiteSessionManager) (fresh e : String) :
    (process_prompt m fresh (.setupError e)).1 = "Error: " ++ e ++ TROUBLESHOOTING
    ∧ (process_prompt m fresh (.invokeError e)).1 = "Error: " ++ e ++ TROUBLESHOOTING
    ∧ (tryDrop "Error:".data ((process_prompt m fresh (.setupError e)).1).data).isSome = true
    ∧ ∃ a b, ((process_prompt m fresh (.invokeError e)).1).data = a ++ e.data ++ b :=
  ⟨rfl, rfl, rfl, ⟨"Error: ".data, TROUBLESHOOTING.data, rfl⟩⟩

/-- C8: the falsy-text guard of `extract_code_blocks` returns the
sentinel text, not the empty string. -/
theorem C8_empty_text_sentinel (lang : String) :
    extract_code_blocks "" lang = "no text provided"
    ∧ ("no text provided" : String) ≠ "" :=
  ⟨rfl, by decide⟩

/-- C9: when the probe output carries neither not-recognized marker the
installer returns `none` (the Python `None`), and it returns the
installer output exactly when a marker is present. -/
theorem C9_install_only_when_missing (probeOut installOut : String) :
    (containsTok notRecognizedFr probeOut = false →
      containsTok notRecognizedEn probeOut = false →
      install_netlify_cli probeOut installOut = none)
    ∧ ((containsTok notRecognizedFr probeOut = true ∨ containsTok notRecognizedEn probeOut = true) →
      install_netlify_cli probeOut installOut = some installOut) := by
  constructor
  · intro h1 h2; simp [install_netlify_cli, h1, h2]
  · intro h; rcases h with h | h <;> simp [install_netlify_cli, h]

/-- Witness for C9 at a concrete installed-CLI probe output. -/
theorem C9_witness :
    containsTok notRecognizedFr "Usage: netlify [options]" = false
    ∧ containsTok notRecognizedEn "Usage: netlify [options]" = false
    ∧ install_netlify_cli "Usage: netlify [options]" "npm output" = none :=
  ⟨by decide, by decide,
   (C9_install_only_when_missing "Usage: netlify [options]" "npm output").1 (by decide) (by decide)⟩

/-! ## Claim C7: extraction preference order -/

/-- Counterexample to C7 as stated: a response whose messages list has
one assistant-authored message and one untyped message.  The code joins
both contents, while the claim prescribes only the assistant-authored
content. -/
theorem C7_counterexample :
    extract_response_text
        (.withMessages [⟨some "hello", none, "r1"⟩, ⟨some "world", some "ai", "r2"⟩])
      = some "hello\n\nworld"
    ∧ specClaimedText
        (.withMessages [⟨some "hello", none, "r1"⟩, ⟨some "world", some "ai", "r2"⟩])
      = some "world"
    ∧ ("hello\n\nworld" : String) ≠ "world" :=
  ⟨by decide, by decide, by decide⟩

/-- C7 amended: the extraction of `process_prompt` prefers the blank-line
join of the contents of the non-empty messages that are assistant-authored
or untyped, falls back to the last message text, and falls back to the
stringified response. -/
theorem C7_amended_extraction (r : AgentResponse) :
    extract_response_text r = specPreferredText r := by
  cases r with
  | other s => rfl
  | withMessages msgs =>
    have hcollect : collectAssistant msgs = msgs.filterMap (fun m =>
        match m.content with
        | some c => if c ≠ "" ∧ (m.msgType = some "ai" ∨ m.msgType = none) then some c else none
        | none => none) := by
      unfold collectAssistant
      congr 1
      funext m
      cases hc : m.content with
      | none => rfl
      | some c =>
        by_cases hce : c = ""
        · subst hce; simp
        · cases ht : m.msgType with
          | none => simp [hce]
          | some t => by_cases hta : t = "ai" <;> simp [hce, hta]
    show (if collectAssistant msgs ≠ [] then some (String.intercalate "\n\n" (collectAssistant msgs))
        else match msgs.getLast? with
          | none => none
          | some m =>
            match m.content with
            | some c => some c
            | none => some m.reprStr) = _
    rw [hcollect]
    rfl

/-! ## Claims C4 and C5: image catalog invariants and the suggestion heuristic -/

/-- Every catalogued entry satisfies the filter of the scan: it carries a
supported extension and its info path is the directory joined with its
name. -/
theorem catalog_entry_shape (fs : Option (List FileEntry)) (l : List (String × ImageInfo))
    (h : get_available_images fs = .images l) :
    ∀ p ∈ l, lowerExt p.1 ∈ SUPPORTED_IMAGE_FORMATS ∧ p.2.path = IMAGES_DIR ++ "\\" ++ p.1 := by
  intro p hp
  cases fs with
  | none => simp [get_available_images] at h
  | some entries =>
    have h' : (if entries.filterMap (fun e =>
          if e.isFile ∧ lowerExt e.name ∈ SUPPORTED_IMAGE_FORMATS then
            some (e.name, mkImageInfo e) else none) = [] then
          ImagesResult.message "No supported image files found. Please add images to the directory."
        else ImagesResult.images (entries.filterMap (fun e =>
          if e.isFile ∧ lowerExt e.name ∈ SUPPORTED_IMAGE_FORMATS then
            some (e.name, mkImageInfo e) else none))) = ImagesResult.images l := h
    by_cases hinf : entries.filterMap (fun e =>
        if e.isFile ∧ lowerExt e.name ∈ SUPPORTED_IMAGE_FORMATS then
          some (e.name, mkImageInfo e) else none) = []
    · rw [if_pos hinf] at h'; cases h'
    · rw [if_neg hinf] at h'
      injection h' with h''
      rw [← h''] at hp
      rcases List.mem_filterMap.mp hp with ⟨e, _, hfe⟩
      by_cases hc : e.isFile ∧ lowerExt e.name ∈ SUPPORTED_IMAGE_FORMATS
      · rw [if_pos hc] at hfe
        injection hfe with hfe'
        rw [← hfe']
        exact ⟨hc.2, rfl⟩
      · rw [if_neg hc] at hfe; cases hfe

/-- C4: after saving any text under a name whose lowercased extension is
outside the allow-set, no catalog scan lists that name; and every scan
only ever lists names with an extension in the allow-set. -/
theorem C4_catalog_allowset (fs : Option (List FileEntry)) (code name : String)
    (h : lowerExt name ∉ SUPPORTED_IMAGE_FORMATS) :
    (∀ l, get_available_images (some (save_code_to_path fs code name).2) = .images l →
      ∀ p ∈ l, p.1 ≠ name)
    ∧ (∀ fs2 l, get_available_images fs2 = .images l →
      ∀ p ∈ l, lowerExt p.1 ∈ SUPPORTED_IMAGE_FORMATS) := by
  constructor
  · intro l hl p hp heq
    exact h (heq ▸ (catalog_entry_shape _ _ hl p hp).1)
  · intro fs2 l hl p hp
    exact (catalog_entry_shape _ _ hl p hp).1

/-- Witness for C4: an html file is outside the allow-set, and the
theorem applies to a concrete catalog listing one png file. -/
theorem C4_witness :
    lowerExt "index.html" ∉ SUPPORTED_IMAGE_FORMATS
    ∧ ∀ p ∈ [("logo.png", mkImageInfo ⟨"logo.png", 100, true⟩)],
        lowerExt (Prod.fst p) ∈ SUPPORTED_IMAGE_FORMATS :=
  ⟨by decide,
   (C4_catalog_allowset (some []) "" "index.html" (by decide)).2
     (some [⟨"logo.png", 100, true⟩]) [("logo.png", mkImageInfo ⟨"logo.png", 100, true⟩)]
     (by decide)⟩

/-- The suggestion computed for the file logo.png is the high-confidence
header-logo suggestion, for every context. -/
theorem suggestFor_logo_png (c : String) :
    suggestFor c "logo.png" =
      { image := "logo.png"
        suggested_usage := "Use as website logo in header"
        html_example := "<img src=\"logo.png\" alt=\"Company Logo\" class=\"logo\" style=\"height: 50px;\">"
        confidence := "high" } := by
  have h1 : containsTok "logo" (pyLower "logo.png") = true := by decide
  have h2 : containsTok "work" (pyLower "logo.png") = false := by decide
  have h3 : containsTok "project" (pyLower "logo.png") = false := by decide
  have h4 : containsTok "portfolio" (pyLower "logo.png") = false := by decide
  have h5 : containsTok "hero" (pyLower "logo.png") = false := by decide
  unfold suggestFor
  simp [h1, h2, h3, h4, h5]

/-- A file name containing none of the heuristic keywords keeps the
empty default usage. -/
theorem suggestFor_no_keywords (c name : String)
    (hlogo : containsTok "logo" (pyLower name) = false)
    (hhero : containsTok "hero" (pyLower name) = false)
    (hbanner : containsTok "banner" (pyLower name) = false)
    (hproduct : containsTok "product" (pyLower name) = false)
    (hteam : containsTok "team" (pyLower name) = false)
    (hstaff : containsTok "staff" (pyLower name) = false)
    (hicon : containsTok "icon" (pyLower name) = false)
    (hwork : containsTok "work" (pyLower name) = false)
    (hproj : containsTok "project" (pyLower name) = false)
    (hport : containsTok "portfolio" (pyLower name) = false) :
    (suggestFor c name).suggested_usage = "" := by
  unfold suggestFor
  simp [hlogo, hhero, hbanner, hproduct, hteam, hstaff, hicon, hwork, hproj, hport]

/-- C5: a catalog containing logo.png always yields the high-confidence
header-logo suggestion for that file, and a file name containing none of
the heuristic keywords never receives the header-logo label. -/
theorem C5_logo_heuristic (fs : Option (List FileEntry)) (ctx : String)
    (l : List (String × ImageInfo)) (info : ImageInfo)
    (hcat : get_available_images fs = .images l)
    (hmem : ("logo.png", info) ∈ l) :
    (∃ sugg, suggest_image_usage ctx fs = .ok ctx l.length sugg
      ∧ { image := "logo.png"
          suggested_usage := "Use as website logo in header"
          html_example := "<img src=\"logo.png\" alt=\"Company Logo\" class=\"logo\" style=\"height: 50px;\">"
          confidence := "high" } ∈ sugg)
    ∧ ∀ name c2,
        (∀ kw ∈ (["logo", "hero", "banner", "product", "team", "staff", "icon",
            "work", "project", "portfolio"] : List String),
          containsTok kw (pyLower name) = false) →
        (suggestFor (pyLower c2) name).suggested_usage ≠ "Use as website logo in header" := by
  constructor
  · refine ⟨l.map (fun p => suggestFor (pyLower ctx) p.1), ?_, ?_⟩
    · unfold suggest_image_usage; rw [hcat]
    · rw [← suggestFor_logo_png (pyLower ctx)]
      exact List.mem_map.mpr ⟨("logo.png", info), hmem, rfl⟩
  · intro name c2 hkw heq
    rw [suggestFor_no_keywords (pyLower c2) name
      (hkw "logo" (by simp)) (hkw "hero" (by simp)) (hkw "banner" (by simp))
      (hkw "product" (by simp)) (hkw "team" (by simp)) (hkw "staff" (by simp))
      (hkw "icon" (by simp)) (hkw "work" (by simp)) (hkw "project" (by simp))
      (hkw "portfolio" (by simp))] at heq
    exact (by decide : ¬ (("" : String) = "Use as website logo in header")) heq

/-- Witness for C5 at a concrete one-image catalog. -/
theorem C5_witness :
    ∃ sugg, suggest_image_usage "shop" (some [⟨"logo.png", 2048, true⟩])
        = .ok "shop" ([("logo.png", mkImageInfo ⟨"logo.png", 2048, true⟩)]).length sugg
      ∧ { image := "logo.png"
          suggested_usage := "Use as website logo in header"
          html_example := "<img src=\"logo.png\" alt=\"Company Logo\" class=\"logo\" style=\"height: 50px;\">"
          confidence := "high" } ∈ sugg :=
  (C5_logo_heuristic (some [⟨"logo.png", 2048, true⟩]) "shop"
    [("logo.png", mkImageInfo ⟨"logo.png", 2048, true⟩)] (mkImageInfo ⟨"logo.png", 2048, true⟩)
    (by decide) (by decide)).1

/-! ## Claim C3: deploy output without a deploy_url field -/

/-- Counterexample to C3 as stated: on colorized output the warning
carries the ANSI-stripped text, so the raw process output is not
contained in the returned string. -/
theorem C3_counterexample :
    deploy_netlify deployNoUrlOutput
      = "⚠️ Could not find deploy URL.\n\nFull output:\nNo URL found"
    ∧ containsSeq deployNoUrlOutput.data (deploy_netlify deployNoUrlOutput).data = false :=
  ⟨by decide, by decide⟩

/-- Absence of the quoted deploy_url literal makes the URL scan fail. -/
theorem findDeployUrl_eq_none (cs : List Char)
    (h : containsSeq deployUrlLiteral cs = false) : findDeployUrl cs = none := by
  induction cs with
  | nil => rfl
  | cons c cs ih =>
    rw [containsSeq, Bool.or_eq_false_iff] at h
    have hat : deployUrlAt (c :: cs) = none := by
      unfold deployUrlAt
      cases htd : tryDrop deployUrlLiteral (c :: cs) with
      | none => rfl
      | some r => rw [htd] at h; simp at h
    show (match deployUrlAt (c :: cs) with
      | some g => some g
      | none => findDeployUrl cs) = none
    rw [hat, ih h.2]

/-- C3 amended: when the ANSI-stripped process output contains no quoted
deploy_url field, the deploy tool returns the warning that the URL could
not be found, carrying the ANSI-stripped process output. -/
theorem C3_no_url_warning (raw : String)
    (h : containsSeq deployUrlLiteral (remove_ansi_str raw).data = false) :
    deploy_netlify raw = "⚠️ Could not find deploy URL.\n\nFull output:\n" ++ remove_ansi_str raw
    ∧ ∃ a, (deploy_netlify raw).data = a ++ (remove_ansi_str raw).data := by
  have hn := findDeployUrl_eq_none _ h
  have he : deploy_netlify raw
      = "⚠️ Could not find deploy URL.\n\nFull output:\n" ++ remove_ansi_str raw := by
    show (match findDeployUrl (remove_ansi_str raw).data with
      | some url => "✅ Deploy successful!\n\nURL: " ++ String.mk url
      | none => "⚠️ Could not find deploy URL.\n\nFull output:\n" ++ remove_ansi_str raw) = _
    rw [hn]
  refine ⟨he, "⚠️ Could not find deploy URL.\n\nFull output:\n".data, ?_⟩
  rw [he]
  rfl

/-- Witness for C3 at a concrete output with no URL and no escapes. -/
theorem C3_witness :
    containsSeq deployUrlLiteral (remove_ansi_str "Error: no site linked").data = false
    ∧ deploy_netlify "Error: no site linked"
        = "⚠️ Could not find deploy URL.\n\nFull output:\n" ++ remove_ansi_str "Error: no site linked" :=
  ⟨by decide, (C3_no_url_warning "Error: no site linked" (by decide)).1⟩

/-! ## Claim C10: copying an image to the same directory -/

/-- Lowercasing distributes over string append. -/
theorem pyLower_append (a b : String) : pyLower (a ++ b) = pyLower a ++ pyLower b := by
  unfold pyLower
  have hd : (a ++ b).data = a.data ++ b.data := rfl
  rw [hd, List.map_append]
  rfl

/-- Appending to a common front is injective for strings. -/
theorem appendRightInj (x u v : String) (h : x ++ u = x ++ v) : u = v := by
  have hd : x.data ++ u.data = x.data ++ v.data := congrArg String.data h
  exact congrArg String.mk (List.append_cancel_left hd)

/-- Path comparison of two names joined below the images directory
reduces to comparison of the lowercased names. -/
theorem pathEqWin_names (a b : String) :
    pathEqWin (IMAGES_DIR ++ "\\" ++ a) (IMAGES_DIR ++ "\\" ++ b)
      = (pyLower a == pyLower b) := by
  unfold pathEqWin
  simp only [pyLower_append]
  by_cases h : pyLower a = pyLower b
  · simp [h]
  · have hne : ¬ (pyLower IMAGES_DIR ++ pyLower "\\" ++ pyLower a
        = pyLower IMAGES_DIR ++ pyLower "\\" ++ pyLower b) := by
      intro hc
      exact h (appendRightInj (pyLower IMAGES_DIR ++ pyLower "\\") _ _ hc)
    simp [hne, h]

/-- C10: with no new name, an empty new name, or the original name, the
copy tool leaves the directory untouched and returns the
already-in-directory confirmation; and whenever the directory changes, a
distinct non-empty new name was supplied. -/
theorem C10_copy_frame (fs : Option (List FileEntry)) (image_name : String)
    (new_name : Option String) :
    (∀ l info, get_available_images fs = .images l →
      l.find? (fun p => p.1 == image_name) = some (image_name, info) →
      (new_name = none ∨ new_name = some "" ∨ new_name = some image_name) →
      copy_image_to_website fs image_name new_name = (alreadyMsg image_name image_name, fs))
    ∧ ((copy_image_to_website fs image_name new_name).2 ≠ fs →
      ∃ s, new_name = some s ∧ s ≠ "" ∧ pyLower s ≠ pyLower image_name) := by
  constructor
  · intro l info hcat hfind hnn
    have hmem : (image_name, info) ∈ l := List.mem_of_find?_eq_some hfind
    have hpath : info.path = IMAGES_DIR ++ "\\" ++ image_name :=
      (catalog_entry_shape fs l hcat (image_name, info) hmem).2
    rcases hnn with h | h | h <;> subst h <;>
      · unfold copy_image_to_website
        simp [hcat, hfind, hpath, pathEqWin_names]
  · intro hne
    cases hg : get_available_images fs with
    | message s =>
      exfalso
      apply hne
      show (copy_image_to_website fs image_name new_name).2 = fs
      unfold copy_image_to_website
      simp [hg]
    | error s =>
      exfalso
      apply hne
      show (copy_image_to_website fs image_name new_name).2 = fs
      unfold copy_image_to_website
      simp [hg]
    | images l =>
      cases hf : l.find? (fun p => p.1 == image_name) with
      | none =>
        exfalso
        apply hne
        show (copy_image_to_website fs image_name new_name).2 = fs
        unfold copy_image_to_website
        simp [hg, hf]
      | some p =>
        have hbeq : (p.1 == image_name) = true := by
          have h2 := List.find?_some hf
          simpa using h2
        have hp1 : p.1 = image_name := eq_of_beq hbeq
        have hpath : p.2.path = IMAGES_DIR ++ "\\" ++ image_name := by
          rw [← hp1]
          exact (catalog_entry_shape fs l hg p (List.mem_of_find?_eq_some hf)).2
        cases hn : new_name with
        | none =>
          exfalso
          apply hne
          show (copy_image_to_website fs image_name new_name).2 = fs
          unfold copy_image_to_website
          simp [hg, hf, hn, hpath, pathEqWin_names]
        | some s =>
          by_cases hs : s = ""
          · exfalso
            apply hne
            show (copy_image_to_website fs image_name new_name).2 = fs
            unfold copy_image_to_website
            simp [hg, hf, hn, hs, hpath, pathEqWin_names]
          · by_cases hl : pyLower s = pyLower image_name
            · exfalso
              apply hne
              show (copy_image_to_website fs image_name new_name).2 = fs
              unfold copy_image_to_website
              simp [hg, hf, hn, hs, hpath, pathEqWin_names, hl]
            · exact ⟨s, rfl, hs, hl⟩

/-- Witness for C10 at a concrete one-image directory and absent new
name. -/
theorem C10_witness :
    copy_image_to_website (some [⟨"logo.png", 5, true⟩]) "logo.png" none
      = (alreadyMsg "logo.png" "logo.png", some [⟨"logo.png", 5, true⟩]) :=
  (C10_copy_frame (some [⟨"logo.png", 5, true⟩]) "logo.png" none).1
    [("logo.png", mkImageInfo ⟨"logo.png", 5, true⟩)] (mkImageInfo ⟨"logo.png", 5, true⟩)
    (by decide) (by decide) (Or.inl rfl)

/-! ## Claim C1: extraction of a unique html fence -/

/-- The lazy group stops exactly at an explicit closing fence when the
stretch before it is free of backticks. -/
theorem upToTriple_append_triple (b t : List Char) (hb : '\x60' ∉ b) :
    upToTriple (b ++ '\x60' :: '\x60' :: '\x60' :: t) = some b := by
  induction b with
  | nil =>
    show upToTriple ('\x60' :: '\x60' :: '\x60' :: t) = some []
    unfold upToTriple
    simp [tripleTick, tryDrop]
  | cons x xs ih =>
    have hx : x ≠ '\x60' := fun h => hb (h ▸ List.mem_cons_self x xs)
    have hxs : '\x60' ∉ xs := fun h => hb (List.mem_cons_of_mem x h)
    show upToTriple (x :: (xs ++ '\x60' :: '\x60' :: '\x60' :: t)) = some (x :: xs)
    unfold upToTriple
    have hts : (tryDrop tripleTick (x :: (xs ++ '\x60' :: '\x60' :: '\x60' :: t))).isSome = false := by
      simp [tripleTick, tryDrop, Ne.symm hx]
    simp [hts, ih hxs]

/-- A successful lazy group is followed by a closing fence. -/
theorem upToTriple_some_decomp :
    ∀ xs g, upToTriple xs = some g → ∃ ys, xs = g ++ '\x60' :: '\x60' :: '\x60' :: ys := by
  intro xs
  induction xs with
  | nil => intro g h; cases h
  | cons c cs ih =>
    intro g h
    unfold upToTriple at h
    by_cases hts : (tryDrop tripleTick (c :: cs)).isSome
    · rw [if_pos hts] at h
      injection h with h'
      subst h'
      cases htd : tryDrop tripleTick (c :: cs) with
      | none => rw [htd] at hts; simp at hts
      | some r =>
        have hr := tryDrop_eq_some tripleTick (c :: cs) r htd
        exact ⟨r, by simpa [tripleTick] using hr⟩
    · rw [if_neg hts] at h
      cases hu : upToTriple cs with
      | none => rw [hu] at h; cases h
      | some g' =>
        rw [hu] at h
        injection h with h'
        rcases ih g' hu with ⟨ys, hys⟩
        refine ⟨ys, ?_⟩
        rw [← h', hys]
        rfl

/-- Dropping whitespace stops at a backtick on the right. -/
theorem dropWhile_append_tick (xs t : List Char) :
    (xs ++ '\x60' :: t).dropWhile pyIsSpace = xs.dropWhile pyIsSpace ++ '\x60' :: t := by
  have h60 : pyIsSpace '\x60' = false := by decide
  induction xs with
  | nil => simp [List.dropWhile, h60]
  | cons x xs ih =>
    by_cases hx : pyIsSpace x
    · simp [List.dropWhile, hx, ih]
    · simp [List.dropWhile, hx]

/-- Dropping whitespace twice is dropping it once. -/
theorem dropWhile_dropWhile (xs : List Char) (p : Char → Bool) :
    (xs.dropWhile p).dropWhile p = xs.dropWhile p := by
  induction xs with
  | nil => rfl
  | cons x xs ih =>
    by_cases hx : p x
    · simp [List.dropWhile, hx, ih]
    · simp [List.dropWhile, hx]

/-- Stripping after dropping the leading whitespace strips the original. -/
theorem pyStripChars_dropWhile (xs : List Char) :
    pyStripChars (xs.dropWhile pyIsSpace) = pyStripChars xs := by
  unfold pyStripChars
  rw [dropWhile_dropWhile]

/-- The fence pattern fails at any position not starting with a
backtick. -/
theorem fenceMatchAt_cons_ne (tag : List Char) (c : Char) (cs : List Char) (hc : c ≠ '\x60') :
    fenceMatchAt tag (c :: cs) = none := by
  unfold fenceMatchAt
  have htd : tryDrop (tripleTick ++ tag) (c :: cs) = none := by
    simp [tripleTick, tryDrop, Ne.symm hc]
  rw [htd]

/-- The scan skips a backtick-free front. -/
theorem fenceSearch_append_clean (tag pre rest : List Char) (h : '\x60' ∉ pre) :
    fenceSearch tag (pre ++ rest) = fenceSearch tag rest := by
  induction pre with
  | nil => rfl
  | cons x xs ih =>
    have hx : x ≠ '\x60' := fun hh => h (hh ▸ List.mem_cons_self x xs)
    have hxs : '\x60' ∉ xs := fun hh => h (List.mem_cons_of_mem x hh)
    have hstep : fenceSearch tag (x :: (xs ++ rest)) = fenceSearch tag (xs ++ rest) := by
      show (match fenceMatchAt tag (x :: (xs ++ rest)) with
        | some g => some g
        | none => fenceSearch tag (xs ++ rest)) = fenceSearch tag (xs ++ rest)
      rw [fenceMatchAt_cons_ne tag x (xs ++ rest) hx]
    show fenceSearch tag (x :: (xs ++ rest)) = fenceSearch tag rest
    rw [hstep]
    exact ih hxs

/-- The fence pattern succeeds at an explicit marker position: the
whitespace run after the marker is consumed and the group runs up to the
closing fence. -/
theorem fenceMatchAt_at_marker (tag body post : List Char)
    (hbody : '\x60' ∉ body)
    (c : Char) (cs : List Char) (hb : body = c :: cs) (hc : pyIsSpace c = true) :
    fenceMatchAt tag ((tripleTick ++ tag) ++ (body ++ '\x60' :: '\x60' :: '\x60' :: post))
      = some (body.dropWhile pyIsSpace) := by
  subst hb
  have hdw : '\x60' ∉ cs.dropWhile pyIsSpace := fun hmem =>
    hbody (List.mem_cons_of_mem c ((List.dropWhile_sublist _).subset hmem))
  have htd := tryDrop_append_self (tripleTick ++ tag)
      ((c :: cs) ++ '\x60' :: '\x60' :: '\x60' :: post)
  show (match tryDrop (tripleTick ++ tag)
      ((tripleTick ++ tag) ++ ((c :: cs) ++ '\x60' :: '\x60' :: '\x60' :: post)) with
    | none => none
    | some rest =>
      match rest with
      | [] => none
      | c :: _ => if pyIsSpace c then upToTriple (rest.dropWhile pyIsSpace) else none) = _
  rw [htd]
  show (if pyIsSpace c then
      upToTriple (((c :: cs) ++ '\x60' :: '\x60' :: '\x60' :: post).dropWhile pyIsSpace)
    else none) = _
  rw [if_pos (by simp [hc])]
  have hd1 : ((c :: cs) ++ '\x60' :: '\x60' :: '\x60' :: post).dropWhile pyIsSpace
      = cs.dropWhile pyIsSpace ++ '\x60' :: '\x60' :: '\x60' :: post := by
    show ((c :: (cs ++ '\x60' :: '\x60' :: '\x60' :: post)).dropWhile pyIsSpace) = _
    rw [List.dropWhile_cons_of_pos (by simp [hc])]
    exact dropWhile_append_tick cs ('\x60' :: '\x60' :: post)
  rw [hd1, upToTriple_append_triple _ _ hdw]
  have hd2 : (c :: cs).dropWhile pyIsSpace = cs.dropWhile pyIsSpace :=
    List.dropWhile_cons_of_pos (by simp [hc])
  rw [hd2]

/-- The scan reports a successful match at the current position. -/
theorem fenceSearch_at_marker (tag rest g : List Char)
    (h : fenceMatchAt tag ((tripleTick ++ tag) ++ rest) = some g) :
    fenceSearch tag ((tripleTick ++ tag) ++ rest) = some g := by
  show (match fenceMatchAt tag ('\x60' :: (('\x60' :: '\x60' :: tag) ++ rest)) with
    | some g => some g
    | none => fenceSearch tag (('\x60' :: '\x60' :: tag) ++ rest)) = some g
  have h' : fenceMatchAt tag ('\x60' :: (('\x60' :: '\x60' :: tag) ++ rest)) = some g := h
  rw [h']

/-- A successful scan splits the text at a successful match position. -/
theorem fenceSearch_some_split (tag : List Char) :
    ∀ cs g, fenceSearch tag cs = some g →
      ∃ a r, cs = a ++ r ∧ fenceMatchAt tag r = some g := by
  intro cs
  induction cs with
  | nil => intro g h; cases h
  | cons c cs ih =>
    intro g h
    have h' : (match fenceMatchAt tag (c :: cs) with
      | some g => some g
      | none => fenceSearch tag cs) = some g := h
    cases hm : fenceMatchAt tag (c :: cs) with
    | some g' =>
      rw [hm] at h'
      injection h' with h''
      exact ⟨[], c :: cs, rfl, by rw [hm, h'']⟩
    | none =>
      rw [hm] at h'
      rcases ih g h' with ⟨a, r, hcs, hr⟩
      exact ⟨c :: a, r, by rw [hcs]; rfl, hr⟩

/-- A successful match decomposes the suffix as marker, non-empty
whitespace, group, closing fence, remainder. -/
theorem fenceMatchAt_some_decomp (tag r g : List Char) (h : fenceMatchAt tag r = some g) :
    ∃ w ys, r = (tripleTick ++ tag) ++ w ++ g ++ tripleTick ++ ys
      ∧ w ≠ [] ∧ ∀ x ∈ w, pyIsSpace x = true := by
  unfold fenceMatchAt at h
  cases htd : tryDrop (tripleTick ++ tag) r with
  | none => rw [htd] at h; cases h
  | some rest =>
    rw [htd] at h
    have hr : r = (tripleTick ++ tag) ++ rest := tryDrop_eq_some _ _ _ htd
    cases rest with
    | nil => cases h
    | cons c rest' =>
      by_cases hc : pyIsSpace c
      · simp only [hc, if_true] at h
        rcases upToTriple_some_decomp _ g h with ⟨ys, hys⟩
        refine ⟨(c :: rest').takeWhile pyIsSpace, ys, ?_, ?_, ?_⟩
        · have hsplit : (c :: rest').takeWhile pyIsSpace ++ (c :: rest').dropWhile pyIsSpace
              = c :: rest' := List.takeWhile_append_dropWhile pyIsSpace (c :: rest')
          conv_lhs => rw [hr, ← hsplit, hys]
          simp [tripleTick, List.append_assoc]
        · rw [List.takeWhile_cons_of_pos hc]
          exact List.cons_ne_nil c _
        · intro x hx
          exact List.mem_takeWhile_imp hx
      · simp only [hc, if_false] at h
        exact absurd h (by simp)

/-- Unfolds `extract_code_blocks` on a successful scan. -/
theorem extract_eq_of_search (text lang : String) (g : List Char)
    (hne : text ≠ "") (hs : fenceSearch (pyLower lang).data text.data = some g) :
    extract_code_blocks text lang = String.mk (pyStripChars g) := by
  unfold extract_code_blocks
  rw [if_neg hne, hs]

/-- Unfolds `extract_code_blocks` on a failed scan. -/
theorem extract_eq_empty_of_search (text lang : String)
    (hne : text ≠ "") (hs : fenceSearch (pyLower lang).data text.data = none) :
    extract_code_blocks text lang = "" := by
  unfold extract_code_blocks
  rw [if_neg hne, hs]

/-- C1: a text with exactly one cleanly delimited html fence (no stray
backticks around or inside it, and whitespace after the tag as every
markdown fence has) extracts to the inner text stripped of surrounding
whitespace; and a non-empty text containing no html fence at all
extracts to the empty string. -/
theorem C1_extract_unique_html (pre body post : List Char)
    (hpre : '\x60' ∉ pre) (hbody : '\x60' ∉ body)
    (hws : ∃ c cs, body = c :: cs ∧ pyIsSpace c = true) :
    extract_code_blocks (String.mk (pre ++ "```html".data ++ body ++ "```".data ++ post)) "html"
        = String.mk (pyStripChars body)
    ∧ ∀ t : String, t ≠ "" →
        (¬ ∃ a w b c, t.data = a ++ "```html".data ++ w ++ b ++ "```".data ++ c
          ∧ w ≠ [] ∧ ∀ x ∈ w, pyIsSpace x = true) →
        extract_code_blocks t "html" = "" := by
  have hlang : pyLower "html" = "html" := by decide
  have hM : "```html".data = tripleTick ++ "html".data := rfl
  have hT3 : "```".data = tripleTick := rfl
  constructor
  · obtain ⟨c, cs, hb, hc⟩ := hws
    have htne : String.mk (pre ++ "```html".data ++ body ++ "```".data ++ post) ≠ "" := by
      intro hh
      have hdd : pre ++ "```html".data ++ body ++ "```".data ++ post = ([] : List Char) :=
        congrArg String.data hh
      rw [hM] at hdd
      simp [tripleTick] at hdd
    have hassoc : pre ++ "```html".data ++ body ++ "```".data ++ post
        = pre ++ ((tripleTick ++ "html".data) ++ (body ++ '\x60' :: '\x60' :: '\x60' :: post)) := by
      rw [hM, hT3]
      simp [tripleTick, List.append_assoc]
    have hsearch : fenceSearch (pyLower "html").data
        (String.mk (pre ++ "```html".data ++ body ++ "```".data ++ post)).data
        = some (body.dropWhile pyIsSpace) := by
      rw [hlang]
      show fenceSearch "html".data (pre ++ "```html".data ++ body ++ "```".data ++ post)
        = some (body.dropWhile pyIsSpace)
      rw [hassoc, fenceSearch_append_clean _ _ _ hpre]
      exact fenceSearch_at_marker _ _ _
        (fenceMatchAt_at_marker "html".data body post hbody c cs hb hc)
    rw [extract_eq_of_search _ _ _ htne hsearch, pyStripChars_dropWhile]
  · intro t ht hno
    cases hsv : fenceSearch (pyLower "html").data t.data with
    | none => exact extract_eq_empty_of_search t "html" ht hsv
    | some g =>
      exfalso
      apply hno
      rw [hlang] at hsv
      rcases fenceSearch_some_split _ _ _ hsv with ⟨a, r, hts, hmr⟩
      rcases fenceMatchAt_some_decomp _ _ _ hmr with ⟨w, ys, hrd, hwne, hwall⟩
      refine ⟨a, w, g, ys, ?_, hwne, hwall⟩
      rw [hts, hrd, hM, hT3]
      simp [List.append_assoc]

/-- Witness for C1 at a concrete text with one html fence. -/
theorem C1_witness :
    extract_code_blocks (String.mk ("Intro: ".data ++ "```html".data ++ "\n<p>hi</p>\n".data
        ++ "```".data ++ " tail".data)) "html" = "<p>hi</p>" :=
  ((C1_extract_unique_html "Intro: ".data "\n<p>hi</p>\n".data " tail".data
      (by decide) (by decide)
      ⟨'\n', "<p>hi</p>\n".data, by decide, by decide⟩).1).trans (by decide)
